import Mathlib

/-!
Verification of `blocks/extensions/monitoring.py`.

The module is a thin coordination layer: a mixin (`MonitoringExtension`)
that computes record names and writes (name, value) batches into a log
row, plus two extensions (`DataStreamMonitoring`, `TrainingDataMonitoring`)
whose `do` callbacks either forward evaluator results to the log or manage
an aggregation buffer.  We embed the module shallowly: the log row is the
ordered list of `setattr` writes, external collaborators (evaluator,
aggregation buffer, training algorithm) are abstracted to their observable
interactions, and every side effect of `do` is recorded in an explicit
event trace.  Python exceptions become an `Option MonitorError` component:
mutations performed before the raise persist, as they do in Python.
-/

namespace Blocks

/-- The module-level constant `PREFIX_SEPARATOR = '_'`. -/
def SEPARATOR : String := "_"

/-- Python truthiness of an optional string: `None` and the empty string
are falsy, every other string is truthy.  Used for `if self.prefix`
and `if not name` in the source. -/
def pyTruthy : Option String → Bool
  | none => false
  | some s => !s.isEmpty

/-- `MonitoringExtension._record_name`:
`self.prefix + PREFIX_SEPARATOR + name if self.prefix else name`.
The first argument is the extension's optional prefix string. -/
def record_name (pfx : Option String) (name : String) : String :=
  if pyTruthy pfx then pfx.getD "" ++ SEPARATOR ++ name else name

/-- The exceptions the module can raise. -/
inductive MonitorError : Type
  /-- `ValueError("monitor variable without name")` in `add_records`. -/
  | missingName : MonitorError
  /-- The bare `ValueError` raised in `TrainingDataMonitoring.do` when the
  algorithm is not a `DifferentiableCostMinimizer`. -/
  | notDifferentiableCostMinimizer : MonitorError
  /-- `Exception("TrainingDataMonitoring.do should be invoked no more than
  once per iteration")`. -/
  | doubleInvocation : MonitorError
deriving DecidableEq, Repr

/-- A log row is the ordered list of `setattr(log.current_row, n, v)`
writes performed on it. -/
abbrev LogRow (α : Type) := List (String × α)

/-- The loop body of `MonitoringExtension.add_records`: walks the
`record_tuples`, raising `missingName` at the first falsy name, and
returns the list of writes performed before the raise (all of them when
no name is falsy).  Variable names are `Option String` because a Theano
variable's `name` may be `None`. -/
def add_records_writes {α : Type} (pfx : Option String) :
    List (Option String × α) → List (String × α) × Option MonitorError
  | [] => ([], none)
  | (name, value) :: rest =>
    if pyTruthy name then
      let r := add_records_writes pfx rest
      ((record_name pfx (name.getD ""), value) :: r.1, r.2)
    else
      ([], some MonitorError.missingName)

/-- `MonitoringExtension.add_records`: applies the writes of
`add_records_writes` to the given log row.  The error component is
`some missingName` exactly when the Python code raises; the returned row
keeps the writes done before the raise, as the mutated Python log does. -/
def add_records {α : Type} (pfx : Option String) (row : LogRow α)
    (record_tuples : List (Option String × α)) : LogRow α × Option MonitorError :=
  let r := add_records_writes pfx record_tuples
  (row ++ r.1, r.2)

/-- Reading a field of the log row: the value of the last write to that
name, if any (later `setattr` calls overwrite earlier ones). -/
def lookupRow {α : Type} (row : LogRow α) (name : String) : Option α :=
  (row.reverse.find? (fun p => p.1 == name)).map Prod.snd

/-- `DataStreamMonitoring.do`: evaluates the monitored variables on the
data stream (the evaluator's returned mapping is the `value_items`
argument, in dict iteration order) and writes all pairs to the log via
`add_records`. -/
def DataStreamMonitoring_do {α : Type} (pfx : Option String) (row : LogRow α)
    (value_items : List (Option String × α)) : LogRow α × Option MonitorError :=
  add_records pfx row value_items

/-- Whether `main_loop.algorithm` is an instance of
`DifferentiableCostMinimizer` (`other` stands for any algorithm that is
not). -/
inductive AlgorithmKind : Type
  | differentiableCostMinimizer : AlgorithmKind
  | other : AlgorithmKind
deriving DecidableEq, Repr

/-- The mutable state of a `TrainingDataMonitoring` instance that this
module itself owns: the prefix (from the mixin) and `_last_time_called`. -/
structure TDM : Type where
  pfx : Option String
  last_time_called : Int
deriving DecidableEq, Repr

/-- `TrainingDataMonitoring.__init__`: sets `_last_time_called = -1`. -/
def TrainingDataMonitoring_init (pfx : Option String) : TDM :=
  { pfx := pfx, last_time_called := -1 }

/-- Observable side effects of `TrainingDataMonitoring.do` on its
collaborators, in the order they happen. -/
inductive Event (α : Type) : Type
  /-- `self.main_loop.algorithm.add_updates(self._buffer.accumulation_updates)`. -/
  | addUpdates : Event α
  /-- `self._buffer.initialize_aggregators()`. -/
  | initAggregators : Event α
  /-- `self._buffer.get_aggregated_values()`. -/
  | getAggregatedValues : Event α
  /-- `setattr(log.current_row, name, value)`. -/
  | logWrite (name : String) (value : α) : Event α
deriving DecidableEq, Repr

/-- The outcome of one invocation of `TrainingDataMonitoring.do`. -/
structure DoResult (α : Type) : Type where
  ext : TDM
  row : LogRow α
  trace : List (Event α)
  error : Option MonitorError
deriving DecidableEq, Repr

/-- `TrainingDataMonitoring.do`.  `iterations_done` is
`main_loop.status.iterations_done`; `aggregated_values` is what
`self._buffer.get_aggregated_values().items()` would return in the
reporting phase.  The trace records the collaborator calls actually made;
mutations before an exception persist, as in Python. -/
def TrainingDataMonitoring_do {α : Type} (ext : TDM) (callback_name : String)
    (algo : AlgorithmKind) (iterations_done : Int) (row : LogRow α)
    (aggregated_values : List (Option String × α)) : DoResult α :=
  if callback_name = "before_training" then
    if algo = AlgorithmKind.differentiableCostMinimizer then
      { ext := ext, row := row,
        trace := [Event.addUpdates, Event.initAggregators], error := none }
    else
      { ext := ext, row := row, trace := [],
        error := some MonitorError.notDifferentiableCostMinimizer }
  else
    if iterations_done = ext.last_time_called then
      { ext := ext, row := row, trace := [],
        error := some MonitorError.doubleInvocation }
    else
      let r := add_records_writes ext.pfx aggregated_values
      match r.2 with
      | some e =>
        { ext := ext, row := row ++ r.1,
          trace := Event.getAggregatedValues ::
            r.1.map (fun p => Event.logWrite p.1 p.2),
          error := some e }
      | none =>
        { ext := ext, row := row ++ r.1,
          trace := Event.getAggregatedValues ::
            (r.1.map (fun p => Event.logWrite p.1 p.2) ++ [Event.initAggregators]),
          error := none }

/-! ### Helper lemmas shared by the claim theorems -/

/-- When every name in the batch is truthy, `add_records_writes` performs
one prefixed write per pair, in order, and raises nothing. -/
theorem addRecordsWrites_valid {α : Type} (pfx : Option String)
    (items : List (Option String × α)) (h : ∀ p ∈ items, pyTruthy p.1 = true) :
    add_records_writes pfx items =
      (items.map (fun p => (record_name pfx (p.1.getD ""), p.2)), none) := by
  induction items with
  | nil => rfl
  | cons p ps ih =>
    obtain ⟨n, v⟩ := p
    have hn : pyTruthy n = true := h (n, v) (List.mem_cons_self _ _)
    have hps : ∀ q ∈ ps, pyTruthy q.1 = true := fun q hq => h q (List.mem_cons_of_mem _ hq)
    simp [add_records_writes, hn, ih hps]

/-- When the batch is valid pairs followed by a pair with a falsy name,
`add_records_writes` writes exactly the valid pairs before it and raises
`missingName`; nothing after the falsy pair is written. -/
theorem addRecordsWrites_split {α : Type} (pfx : Option String)
    (pre post : List (Option String × α)) (bad : Option String × α)
    (hpre : ∀ p ∈ pre, pyTruthy p.1 = true) (hbad : pyTruthy bad.1 = false) :
    add_records_writes pfx (pre ++ bad :: post) =
      (pre.map (fun p => (record_name pfx (p.1.getD ""), p.2)),
        some MonitorError.missingName) := by
  induction pre with
  | nil =>
    obtain ⟨n, v⟩ := bad
    simp [add_records_writes, hbad]
  | cons p ps ih =>
    obtain ⟨n, v⟩ := p
    have hn : pyTruthy n = true := hpre (n, v) (List.mem_cons_self _ _)
    have hps : ∀ q ∈ ps, pyTruthy q.1 = true := fun q hq => hpre q (List.mem_cons_of_mem _ hq)
    simp [add_records_writes, hn, ih hps]

/-- If some name in the batch is falsy, the error is `missingName`. -/
theorem addRecordsWrites_error_of_bad {α : Type} (pfx : Option String)
    (tuples : List (Option String × α)) (h : ∃ p ∈ tuples, pyTruthy p.1 = false) :
    (add_records_writes pfx tuples).2 = some MonitorError.missingName := by
  induction tuples with
  | nil => obtain ⟨p, hp, _⟩ := h; exact absurd hp (List.not_mem_nil p)
  | cons q qs ih =>
    obtain ⟨n, v⟩ := q
    by_cases hn : pyTruthy n = true
    · obtain ⟨p, hp, hpf⟩ := h
      rcases List.mem_cons.mp hp with rfl | hp'
      · simp only at hpf; rw [hn] at hpf; exact absurd hpf (by simp)
      · simp [add_records_writes, hn, ih ⟨p, hp', hpf⟩]
    · have hn' : pyTruthy n = false := by
        cases hb : pyTruthy n with
        | false => rfl
        | true => exact absurd hb hn
      simp [add_records_writes, hn']

/-! ### Claim theorems -/

/-- C2: for every prefix `P` and non-empty variable name `N`, the record
name computed by `_record_name` is `P_N` (prefix, underscore separator,
name) when `P` is a non-empty string, and `N` when `P` is `None` or the
empty string. -/
theorem C2_record_name (P : Option String) (N : String) (hN : N ≠ "") :
    (∀ s : String, P = some s → s ≠ "" → record_name P N = s ++ SEPARATOR ++ N) ∧
    ((P = none ∨ P = some "") → record_name P N = N) := by
  constructor
  · rintro s rfl hs
    have : s.isEmpty = false := by
      cases h : s.isEmpty with
      | false => rfl
      | true => exact absurd ((String.isEmpty_iff s).mp h) hs
    simp [record_name, pyTruthy, this]
  · rintro (rfl | rfl)
    · simp [record_name, pyTruthy]
    · have : pyTruthy (some "") = false := by decide
      simp [record_name, this]

/-- Witness for C2 at `P = some "valid"`, `N = "loss"` and at `P = none`. -/
theorem C2_record_name_witness :
    record_name (some "valid") "loss" = "valid" ++ SEPARATOR ++ "loss" ∧
    record_name none "loss" = "loss" := by
  exact ⟨(C2_record_name (some "valid") "loss" (by decide)).1 "valid" rfl (by decide),
    (C2_record_name none "loss" (by decide)).2 (Or.inl rfl)⟩

/-- C3 counterexample: in the batch `[("a", 1), (None, 2)]` the second
pair has a missing name, yet the record `("a", 1)` is written to the log
row before the error is raised — so it is false that no record at all is
written regardless of the unnamed pair's position. -/
theorem C3_counterexample :
    (add_records (α := Int) none [] [(some "a", 1), (none, 2)]).2 =
        some MonitorError.missingName ∧
    (add_records (α := Int) none [] [(some "a", 1), (none, 2)]).1 = [("a", 1)] := by
  constructor <;> rfl

/-- C3 amended: `add_records` stops at the first pair whose name is
missing or empty: every pair before it has already been written to the
log row, and neither the unnamed pair nor any pair after it is written;
the missing-name error is raised. -/
theorem C3_amended_partial_write {α : Type} (pfx : Option String) (row : LogRow α)
    (pre post : List (Option String × α)) (bad : Option String × α)
    (hpre : ∀ p ∈ pre, pyTruthy p.1 = true) (hbad : pyTruthy bad.1 = false) :
    add_records pfx row (pre ++ bad :: post) =
      (row ++ pre.map (fun p => (record_name pfx (p.1.getD ""), p.2)),
        some MonitorError.missingName) := by
  simp [add_records, addRecordsWrites_split pfx pre post bad hpre hbad]

/-- Witness for the amended C3: one valid pair, then an unnamed one. -/
theorem C3_amended_partial_write_witness :
    add_records (α := Int) none [] [(some "a", 1), (none, 2)] =
      ([("a", 1)], some MonitorError.missingName) := by
  exact C3_amended_partial_write none [] [(some "a", 1)] [] (none, 2)
    (by decide) (by decide)

/-- C4: whenever some pair in the batch has a missing or empty name,
`add_records` raises the missing-name `ValueError`, whatever the other
pairs are. -/
theorem C4_missing_name_raises {α : Type} (pfx : Option String) (row : LogRow α)
    (record_tuples : List (Option String × α))
    (h : ∃ p ∈ record_tuples, pyTruthy p.1 = false) :
    (add_records pfx row record_tuples).2 = some MonitorError.missingName := by
  simp [add_records, addRecordsWrites_error_of_bad pfx record_tuples h]

/-- Witness for C4: a batch whose middle pair has an empty name. -/
theorem C4_missing_name_raises_witness :
    (add_records (α := Int) (some "p") []
        [(some "a", 1), (some "", 2), (some "b", 3)]).2 =
      some MonitorError.missingName := by
  exact C4_missing_name_raises (some "p") [] _
    ⟨(some "", 2), by simp, by decide⟩

/-- C5: the setup phase of `TrainingDataMonitoring.do` (callback
`before_training`) with an algorithm that is not a
`DifferentiableCostMinimizer` raises the capability `ValueError` and
performs no collaborator call at all: no `add_updates`, no aggregation
buffer operation, no log write (empty trace), and the extension state and
log row are unchanged. -/
theorem C5_capability_error {α : Type} (ext : TDM) (iterations_done : Int)
    (row : LogRow α) (aggregated_values : List (Option String × α)) :
    TrainingDataMonitoring_do ext "before_training" AlgorithmKind.other
        iterations_done row aggregated_values =
      { ext := ext, row := row, trace := [],
        error := some MonitorError.notDifferentiableCostMinimizer } := by
  rfl

/-- C6: when every name returned by the evaluator is non-empty,
`DataStreamMonitoring.do` writes exactly one record per returned pair —
keyed by the prefixed record name and carrying the value the evaluator's
mapping associates with that name, in order — and nothing else, raising
no error. -/
theorem C6_one_record_per_name {α : Type} (pfx : Option String) (row : LogRow α)
    (value_items : List (Option String × α))
    (h : ∀ p ∈ value_items, pyTruthy p.1 = true) :
    DataStreamMonitoring_do pfx row value_items =
      (row ++ value_items.map (fun p => (record_name pfx (p.1.getD ""), p.2)), none) := by
  simp [DataStreamMonitoring_do, add_records,
    addRecordsWrites_valid pfx value_items h]

/-- Witness for C6 with two named values. -/
theorem C6_one_record_per_name_witness :
    DataStreamMonitoring_do (α := Int) (some "valid") []
        [(some "loss", 7), (some "acc", 9)] =
      ([("valid_loss", 7), ("valid_acc", 9)], none) := by
  have h := C6_one_record_per_name (α := Int) (some "valid") []
    [(some "loss", 7), (some "acc", 9)] (by decide)
  simpa using h

/-- C7: with prefix `"valid"` and the evaluator returning
`{"loss": 0.5, "acc": 0.9}`, the log row after `do` has field
`valid_loss = 0.5` and field `valid_acc = 0.9`. -/
theorem C7_end_to_end :
    lookupRow (DataStreamMonitoring_do (some "valid") ([] : LogRow ℚ)
        [(some "loss", 1/2), (some "acc", 9/10)]).1 "valid_loss" = some (1/2) ∧
    lookupRow (DataStreamMonitoring_do (some "valid") ([] : LogRow ℚ)
        [(some "loss", 1/2), (some "acc", 9/10)]).1 "valid_acc" = some (9/10) := by
  constructor <;> rfl

/-- C9: `_last_time_called` is `-1` after construction and no invocation
of `do` (setup or reporting) ever modifies the extension's own state, so
`_last_time_called = -1` holds for the lifetime of the instance. -/
theorem C9_last_time_called_constant :
    (∀ pfx : Option String, (TrainingDataMonitoring_init pfx).last_time_called = -1) ∧
    (∀ (α : Type) (ext : TDM) (callback_name : String) (algo : AlgorithmKind)
        (iterations_done : Int) (row : LogRow α)
        (aggregated_values : List (Option String × α)),
      (TrainingDataMonitoring_do ext callback_name algo iterations_done row
          aggregated_values).ext = ext) := by
  refine ⟨fun pfx => rfl, fun α ext cb algo it row agg => ?_⟩
  unfold TrainingDataMonitoring_do
  split
  · split <;> rfl
  · split
    · rfl
    · dsimp only
      split <;> rfl

/-- C1: the double-invocation guard never fires.  `_last_time_called` is
initialized to `-1` and never updated by `do`, so two reporting-phase
calls with the same nonnegative `iterations_done` (here `0`) both
succeed: neither raises, and the second silently writes the aggregated
values to the log a second time — contradicting the claim (and the
code's own error message) that the second call must raise. -/
theorem C1_guard_never_fires :
    (TrainingDataMonitoring_do (α := Int) (TrainingDataMonitoring_init none)
        "after_epoch" AlgorithmKind.differentiableCostMinimizer 0 []
        [(some "loss", 1)]).error = none ∧
    (TrainingDataMonitoring_do (α := Int)
        (TrainingDataMonitoring_do (α := Int) (TrainingDataMonitoring_init none)
          "after_epoch" AlgorithmKind.differentiableCostMinimizer 0 []
          [(some "loss", 1)]).ext
        "after_epoch" AlgorithmKind.differentiableCostMinimizer 0
        (TrainingDataMonitoring_do (α := Int) (TrainingDataMonitoring_init none)
          "after_epoch" AlgorithmKind.differentiableCostMinimizer 0 []
          [(some "loss", 1)]).row
        [(some "loss", 1)]).error = none ∧
    (TrainingDataMonitoring_do (α := Int)
        (TrainingDataMonitoring_do (α := Int) (TrainingDataMonitoring_init none)
          "after_epoch" AlgorithmKind.differentiableCostMinimizer 0 []
          [(some "loss", 1)]).ext
        "after_epoch" AlgorithmKind.differentiableCostMinimizer 0
        (TrainingDataMonitoring_do (α := Int) (TrainingDataMonitoring_init none)
          "after_epoch" AlgorithmKind.differentiableCostMinimizer 0 []
          [(some "loss", 1)]).row
        [(some "loss", 1)]).row = [("loss", 1), ("loss", 1)] := by
  refine ⟨rfl, rfl, rfl⟩

/-- C8: a successful reporting-phase invocation of
`TrainingDataMonitoring.do` performs, in this order: the read of the
aggregation buffer's aggregated values, then one log write per
aggregated pair, and — after all the writes — the reinitialization of
the buffer via `initialize_aggregators`; no error is raised. -/
theorem C8_report_order {α : Type} (ext : TDM) (callback_name : String)
    (algo : AlgorithmKind) (iterations_done : Int) (row : LogRow α)
    (aggregated_values : List (Option String × α))
    (hcb : callback_name ≠ "before_training")
    (hit : iterations_done ≠ ext.last_time_called)
    (hok : (add_records_writes ext.pfx aggregated_values).2 = none) :
    (TrainingDataMonitoring_do ext callback_name algo iterations_done row
        aggregated_values).trace =
      Event.getAggregatedValues ::
        ((add_records_writes ext.pfx aggregated_values).1.map
            (fun p => Event.logWrite p.1 p.2) ++ [Event.initAggregators]) ∧
    (TrainingDataMonitoring_do ext callback_name algo iterations_done row
        aggregated_values).error = none := by
  refine ⟨?_, ?_⟩ <;>
    · unfold TrainingDataMonitoring_do
      rw [if_neg hcb, if_neg hit]
      dsimp only
      split
      · rename_i e heq
        rw [hok] at heq
        exact Option.noConfusion heq
      · rfl

/-- Witness for C8: a reporting call at iteration 0 with one named value. -/
theorem C8_report_order_witness :
    (TrainingDataMonitoring_do (α := Int) (TrainingDataMonitoring_init (some "p"))
        "after_epoch" AlgorithmKind.differentiableCostMinimizer 0 []
        [(some "a", 1)]).trace =
      Event.getAggregatedValues ::
        ((add_records_writes (TrainingDataMonitoring_init (some "p")).pfx
            [((some "a" : Option String), (1 : Int))]).1.map
            (fun p => Event.logWrite p.1 p.2) ++ [Event.initAggregators]) := by
  exact (C8_report_order (TrainingDataMonitoring_init (some "p")) "after_epoch"
    AlgorithmKind.differentiableCostMinimizer 0 [] [(some "a", 1)]
    (by decide) (by decide) (by decide)).1

/-- C10: when writing the aggregated values raises the missing-name
error during the reporting phase, `initialize_aggregators` is not called
in that invocation — the buffer is not reset — while every pair before
the offending one has already been written to the log row. -/
theorem C10_no_reset_on_error {α : Type} (ext : TDM) (callback_name : String)
    (algo : AlgorithmKind) (iterations_done : Int) (row : LogRow α)
    (pre post : List (Option String × α)) (bad : Option String × α)
    (hcb : callback_name ≠ "before_training")
    (hit : iterations_done ≠ ext.last_time_called)
    (hpre : ∀ p ∈ pre, pyTruthy p.1 = true) (hbad : pyTruthy bad.1 = false) :
    TrainingDataMonitoring_do ext callback_name algo iterations_done row
        (pre ++ bad :: post) =
      { ext := ext,
        row := row ++ pre.map (fun p => (record_name ext.pfx (p.1.getD ""), p.2)),
        trace := Event.getAggregatedValues ::
          (pre.map (fun p => (record_name ext.pfx (p.1.getD ""), p.2))).map
            (fun p => Event.logWrite p.1 p.2),
        error := some MonitorError.missingName } ∧
    Event.initAggregators ∉
      (TrainingDataMonitoring_do ext callback_name algo iterations_done row
        (pre ++ bad :: post)).trace := by
  have hsplit := addRecordsWrites_split ext.pfx pre post bad hpre hbad
  have hmain : TrainingDataMonitoring_do ext callback_name algo iterations_done row
      (pre ++ bad :: post) =
      { ext := ext,
        row := row ++ pre.map (fun p => (record_name ext.pfx (p.1.getD ""), p.2)),
        trace := Event.getAggregatedValues ::
          (pre.map (fun p => (record_name ext.pfx (p.1.getD ""), p.2))).map
            (fun p => Event.logWrite p.1 p.2),
        error := some MonitorError.missingName } := by
    unfold TrainingDataMonitoring_do
    rw [if_neg hcb, if_neg hit]
    dsimp only
    rw [hsplit]
  refine ⟨hmain, ?_⟩
  rw [hmain]
  simp

/-- Witness for C10: one valid pair, then an unnamed one, at iteration 0. -/
theorem C10_no_reset_on_error_witness :
    Event.initAggregators ∉
      (TrainingDataMonitoring_do (α := Int) (TrainingDataMonitoring_init none)
        "after_epoch" AlgorithmKind.differentiableCostMinimizer 0 []
        ([(some "a", 1)] ++ (none, 2) :: [])).trace := by
  exact (C10_no_reset_on_error (TrainingDataMonitoring_init none) "after_epoch"
    AlgorithmKind.differentiableCostMinimizer 0 [] [(some "a", 1)] [] (none, 2)
    (by decide) (by decide) (by decide) (by decide)).2

end Blocks
